import Mathlib

/-!
Shallow embedding of the PowerBI binary-mask decoder of
`src/scraper/scraper.py` (the row locator, dictionary extractor, bit
decoder, row projector and batch driver), together with theorems checking
the specification's claims about it.

Modelling conventions:
* JSON trees are the inductive `JVal`; JSON numbers are modelled as
  integers (the decoder only ever coerces raw entries with `int(...)`,
  compares them with integer thresholds, or passes them through
  unchanged, so integral numbers carry all the behaviour the claims
  are about).
* Python `None` is `JVal.null`; Python truthiness is `truthy`.
* `reverse_binary_16bit(v)[i]` — character `i` of the reversed 16-bit
  binary string — is bit `i` of `v`, embedded as `bitAt v i = v / 2^i % 2`.
* `datetime.fromtimestamp(s).strftime("%Y-%m-%d")` is embedded as the
  proleptic-Gregorian civil date of `s` seconds since the Unix epoch
  (UTC); `fromtimestamp` raises outside datetime's year range 1..9999,
  embedded by `fromtimestampOK`.
* Exceptions that the source catches locally are embedded by returning
  the value the `except` branch produces; the two structural `raise`
  statements of `extract_data_from_json` are embedded with `Except`.
-/

namespace PowerBIScraper

/-- JSON value tree: the decoder's input space. Numbers are modelled as
integers (see the module comment). -/
inductive JVal where
  | null
  | str (s : String)
  | int (n : Int)
  | arr (items : List JVal)
  | obj (fields : List (String × JVal))
deriving Repr

mutual

/-- Decidable equality of `JVal` (the derive handler does not support the
nested lists, so the instance is spelled out). -/
def decEqJVal : (a b : JVal) → Decidable (a = b)
  | .null, .null => isTrue rfl
  | .null, .str _ => isFalse (fun h => JVal.noConfusion h)
  | .null, .int _ => isFalse (fun h => JVal.noConfusion h)
  | .null, .arr _ => isFalse (fun h => JVal.noConfusion h)
  | .null, .obj _ => isFalse (fun h => JVal.noConfusion h)
  | .str _, .null => isFalse (fun h => JVal.noConfusion h)
  | .str a, .str b =>
    match decEq a b with
    | isTrue h => isTrue (by rw [h])
    | isFalse h => isFalse (fun he => h (by injection he))
  | .str _, .int _ => isFalse (fun h => JVal.noConfusion h)
  | .str _, .arr _ => isFalse (fun h => JVal.noConfusion h)
  | .str _, .obj _ => isFalse (fun h => JVal.noConfusion h)
  | .int _, .null => isFalse (fun h => JVal.noConfusion h)
  | .int _, .str _ => isFalse (fun h => JVal.noConfusion h)
  | .int a, .int b =>
    match decEq a b with
    | isTrue h => isTrue (by rw [h])
    | isFalse h => isFalse (fun he => h (by injection he))
  | .int _, .arr _ => isFalse (fun h => JVal.noConfusion h)
  | .int _, .obj _ => isFalse (fun h => JVal.noConfusion h)
  | .arr _, .null => isFalse (fun h => JVal.noConfusion h)
  | .arr _, .str _ => isFalse (fun h => JVal.noConfusion h)
  | .arr _, .int _ => isFalse (fun h => JVal.noConfusion h)
  | .arr a, .arr b =>
    match decEqJList a b with
    | isTrue h => isTrue (by rw [h])
    | isFalse h => isFalse (fun he => h (by injection he))
  | .arr _, .obj _ => isFalse (fun h => JVal.noConfusion h)
  | .obj _, .null => isFalse (fun h => JVal.noConfusion h)
  | .obj _, .str _ => isFalse (fun h => JVal.noConfusion h)
  | .obj _, .int _ => isFalse (fun h => JVal.noConfusion h)
  | .obj _, .arr _ => isFalse (fun h => JVal.noConfusion h)
  | .obj a, .obj b =>
    match decEqJFields a b with
    | isTrue h => isTrue (by rw [h])
    | isFalse h => isFalse (fun he => h (by injection he))

/-- Decidable equality of `List JVal`. -/
def decEqJList : (a b : List JVal) → Decidable (a = b)
  | [], [] => isTrue rfl
  | [], _ :: _ => isFalse (fun h => List.noConfusion h)
  | _ :: _, [] => isFalse (fun h => List.noConfusion h)
  | a :: as, b :: bs =>
    match decEqJVal a b with
    | isFalse h =>
      isFalse (fun he => by
        simp only [List.cons.injEq] at he
        exact h he.1)
    | isTrue h1 =>
      match decEqJList as bs with
      | isTrue h2 => isTrue (by rw [h1, h2])
      | isFalse h =>
        isFalse (fun he => by
          simp only [List.cons.injEq] at he
          exact h he.2)

/-- Decidable equality of object field lists. -/
def decEqJFields : (a b : List (String × JVal)) → Decidable (a = b)
  | [], [] => isTrue rfl
  | [], _ :: _ => isFalse (fun h => List.noConfusion h)
  | _ :: _, [] => isFalse (fun h => List.noConfusion h)
  | (k1, v1) :: as, (k2, v2) :: bs =>
    match decEq k1 k2 with
    | isFalse h =>
      isFalse (fun he => by
        simp only [List.cons.injEq, Prod.mk.injEq] at he
        exact h he.1.1)
    | isTrue hk =>
      match decEqJVal v1 v2 with
      | isFalse h =>
        isFalse (fun he => by
          simp only [List.cons.injEq, Prod.mk.injEq] at he
          exact h he.1.2)
      | isTrue hv =>
        match decEqJFields as bs with
        | isTrue hr => isTrue (by rw [hk, hv, hr])
        | isFalse h =>
          isFalse (fun he => by
            simp only [List.cons.injEq, Prod.mk.injEq] at he
            exact h he.2)

end

instance : DecidableEq JVal := decEqJVal

/-- Decidable equality of `Except`, used to evaluate the extractor on
closed inputs. -/
instance {e a : Type} [DecidableEq e] [DecidableEq a] :
    DecidableEq (Except e a) := fun x y =>
  match x, y with
  | .ok u, .ok v =>
    match decEq u v with
    | isTrue h => isTrue (by rw [h])
    | isFalse h => isFalse (fun he => h (by injection he))
  | .error u, .error v =>
    match decEq u v with
    | isTrue h => isTrue (by rw [h])
    | isFalse h => isFalse (fun he => h (by injection he))
  | .ok _, .error _ => isFalse (fun h => Except.noConfusion h)
  | .error _, .ok _ => isFalse (fun h => Except.noConfusion h)

/-- Python object fields: a JSON object is a `dict`, embedded as an
association list in insertion order. -/
abbrev RowObj := List (String × JVal)

/-- Python `d.get(key)`: the first binding of `key`, if any. -/
def getField : RowObj → String → Option JVal
  | [], _ => none
  | (k, v) :: rest, key => if k = key then some v else getField rest key

/-- Python list coercion used where the source indexes or measures a value
it obtained from the tree (the pipeline only reaches these points with
actual lists). -/
def asArr : JVal → List JVal
  | .arr l => l
  | _ => []

/-- Python dict coercion, as `asArr` for mapping nodes. -/
def asObj : JVal → RowObj
  | .obj l => l
  | _ => []

/-- Python truthiness of a JSON value (`if x:`). -/
def truthy : JVal → Bool
  | .null => false
  | .str s => s ≠ ""
  | .int n => n ≠ 0
  | .arr [] => false
  | .arr (_ :: _) => true
  | .obj [] => false
  | .obj (_ :: _) => true

/-- Bit `i` of a mask value: `int(reverse_binary_16bit(v)[i])`.
`format(v, "016b")` renders `v` most-significant-bit first (width at least
16) and the reversal puts bit `i` at string index `i`, so the indexed
character is exactly bit `i` of `v`. -/
def bitAt (v i : Nat) : Nat := v / 2 ^ i % 2

/-- Column slot names, `columns` of `process_row_with_binary_masks`. -/
def columns : List String :=
  ["G0", "G1", "G2", "G3", "G4", "G5", "G6", "G7", "G8", "G9", "G10",
   "M0", "M1", "M2", "M3"]

/-- Name of column slot `i` (`columns[col_idx]`). -/
def colName (i : Nat) : String := columns.getD i ""

/-- Two-digit zero padding, as `strftime` renders `%m` and `%d`. -/
def pad2 (n : Nat) : String :=
  if n < 10 then "0" ++ toString n else toString n

/-- Four-digit zero padding, as `strftime` renders `%Y` (years 1..9999). -/
def pad4 (y : Int) : String :=
  if y < 10 then "000" ++ toString y
  else if y < 100 then "00" ++ toString y
  else if y < 1000 then "0" ++ toString y
  else toString y

/-- Civil (proleptic Gregorian) date of a day count relative to 1970-01-01:
year, month, day. -/
def civilFromDays (z0 : Int) : Int × Nat × Nat :=
  let z := z0 + 719468
  let era := z.fdiv 146097
  let doe := (z - era * 146097).toNat
  let yoe := (doe - doe / 1460 + doe / 36524 - doe / 146096) / 365
  let doy := doe - (365 * yoe + yoe / 4 - yoe / 100)
  let mp := (5 * doy + 2) / 153
  let d := doy - (153 * mp + 2) / 5 + 1
  let m := if mp < 10 then mp + 3 else mp - 9
  ((yoe : Int) + era * 400 + (if m ≤ 2 then 1 else 0), m, d)

/-- Unix seconds rendered as `%Y-%m-%d` (UTC). -/
def formatDate (secs : Int) : String :=
  let ymd := civilFromDays (secs.fdiv 86400)
  pad4 ymd.1 ++ "-" ++ pad2 ymd.2.1 ++ "-" ++ pad2 ymd.2.2

/-- Seconds values `datetime.fromtimestamp` accepts: dates of years
1..9999 (datetime's range); outside it the call raises, which
`convert_timestamp` catches. -/
def fromtimestampOK (secs : Int) : Bool :=
  -62135596800 ≤ secs && secs ≤ 253402300799

/-- Numeric branch of `convert_timestamp`: the bound value is compared
against the two thresholds; a `fromtimestamp` failure is caught and the
bound (already numeric) value returned. -/
def tsFromNum (n : Int) : JVal :=
  if n > 1000000000000 then
    let secs := n.fdiv 1000
    if fromtimestampOK secs then JVal.str (formatDate secs) else JVal.int n
  else if n > 1000000000 then
    if fromtimestampOK n then JVal.str (formatDate n) else JVal.int n
  else JVal.int n

/-- Value of a digit list, most significant first. -/
def digitsOf (l : List Char) : Nat :=
  l.foldl (fun acc c => acc * 10 + (c.toNat - 48)) 0

/-- Python `float(s)` restricted to integer-literal strings (an optional
minus sign and digits), the shape the sparse values carry; any other
string raises `ValueError`, modelled as `none`. -/
def parseIntStr (s : String) : Option Int :=
  match s.data with
  | [] => none
  | '-' :: rest =>
    if rest ≠ [] && rest.all Char.isDigit then some (-(digitsOf rest : Int))
    else none
  | l =>
    if l.all Char.isDigit then some (digitsOf l : Int) else none

/-- `convert_timestamp` of the source. A falsy value skips everything and
is returned as is; a string is first rebound to its parsed number (an
unparsable string raises, is caught, and the original string returned); a
list or mapping value makes the threshold comparison raise, which is
caught, returning the value. -/
def convert_timestamp : JVal → JVal
  | .str s =>
    if s ≠ "" then
      match parseIntStr s with
      | some n => tsFromNum n
      | none => JVal.str s
    else JVal.str s
  | .int n => if n ≠ 0 then tsFromNum n else JVal.int n
  | v => v

/-- Python `str.isdigit`: non-empty and all digits. -/
def isDigitStr (s : String) : Bool := s ≠ "" && s.data.all Char.isDigit

/-- Value of a digit string (`int(raw_value)` for an `isdigit` string). -/
def digitsVal (s : String) : Nat := digitsOf s.data

/-- Integer coercion of a raw entry in the dictionary branch: a digit
string or a number coerces, anything else falls to the passthrough
branch. -/
def coerceIndex : JVal → Option Int
  | .str s => if isDigitStr s then some (digitsVal s : Int) else none
  | .int n => some n
  | _ => none

/-- The per-run dictionary mapping, `dictionaries` of
`extract_data_from_json`: slot name to lookup table. -/
abbrev DictMap := List (String × List JVal)

/-- Association lookup in a `DictMap` (dict indexing / membership). -/
def lookupDict : DictMap → String → Option (List JVal)
  | [], _ => none
  | (k, t) :: rest, key => if k = key then some t else lookupDict rest key

/-- Value resolution for a consumed raw entry (the body of the
`value_index < len(c_values)` branch of `process_row_with_binary_masks`),
with the Boolean telling whether `value_index += 1` is reached: the
non-coercible dictionary case ends in `continue`, which skips the
increment. -/
def consumeValue (dicts : DictMap) (name : String) (raw : JVal) :
    JVal × Bool :=
  if name = "G0" then (convert_timestamp raw, true)
  else
    match lookupDict dicts name with
    | some table =>
      match coerceIndex raw with
      | some k =>
        if 0 ≤ k ∧ k < (table.length : Int) then
          (table.getD k.toNat JVal.null, true)
        else
          (JVal.str ("Index_" ++ toString k ++ "_OutOfRange"), true)
      | none => (raw, false)
    | none => (raw, true)

/-- Mask value of a row: `row_data.get(key, 0)` fed to
`reverse_binary_16bit`, which maps an absent or null mask to all-zero
bits. Masks are integers by the input contract. -/
def maskOf (row : RowObj) (key : String) : Nat :=
  match getField row key with
  | some (.int n) => n.toNat
  | _ => 0

/-- Sparse value sequence of a row, `row_data.get("C", [])` (the locator
only passes rows whose `C` is a list). -/
def cValues (row : RowObj) : List JVal :=
  match getField row "C" with
  | some (.arr l) => l
  | _ => []

/-- Slot `i` of the previous decoded row: `previous_row[col_idx]` under
`if previous_row:` — no previous row yields `None`, and an empty previous
list is falsy and yields `None` too, which `getD`'s default also gives. -/
def prevVal (prev : Option (List JVal)) (i : Nat) : JVal :=
  match prev with
  | some p => p.getD i JVal.null
  | none => JVal.null

/-- The decoding loop of `process_row_with_binary_masks`: `fuel` columns
starting at column `col` with running cursor `cursor`; yields the slot
values in column order and the final cursor. -/
def processColsAux (dicts : DictMap) (c : List JVal) (r o : Nat)
    (prev : Option (List JVal)) : Nat → Nat → Nat → List JVal × Nat
  | 0, _, cursor => ([], cursor)
  | fuel + 1, col, cursor =>
    if bitAt r col = 1 then
      let rest := processColsAux dicts c r o prev fuel (col + 1) cursor
      (prevVal prev col :: rest.1, rest.2)
    else if bitAt o col = 1 then
      let rest := processColsAux dicts c r o prev fuel (col + 1) cursor
      (JVal.null :: rest.1, rest.2)
    else if cursor < c.length then
      let vc := consumeValue dicts (colName col) (c.getD cursor JVal.null)
      let rest := processColsAux dicts c r o prev fuel (col + 1)
        (if vc.2 then cursor + 1 else cursor)
      (vc.1 :: rest.1, rest.2)
    else
      let rest := processColsAux dicts c r o prev fuel (col + 1) cursor
      (JVal.null :: rest.1, rest.2)

/-- `process_row_with_binary_masks`: decode one row (columns 0..14) with
the previous decoded row as inheritance context. -/
def process_row_with_binary_masks (row : RowObj)
    (prev : Option (List JVal)) (dicts : DictMap) : List JVal :=
  (processColsAux dicts (cValues row) (maskOf row "R") (maskOf row "Ø")
    prev 15 0 0).1

/-- The named output record (`csv_row` of
`convert_processed_row_to_csv`). -/
structure CsvRow where
  scrape_datetime : JVal
  date : JVal
  installation : JVal
  oil_production : JVal
  gas_production : JVal
  oil_equivalents_boe : JVal
  operator : JVal
  type : JVal
  estado : JVal
  city : JVal
  atendimento_campo : JVal
  campo : JVal
  quantity : JVal
  code : JVal
  status : JVal
deriving Repr, DecidableEq

/-- Python `x if x else ""` (truthiness defaulting). -/
def orEmptyIfFalsy (v : JVal) : JVal :=
  if truthy v then v else JVal.str ""

/-- Python `x if x is not None else ""` (null-only defaulting). -/
def orEmptyIfNull : JVal → JVal
  | .null => JVal.str ""
  | v => v

/-- The `csv_row` construction of `convert_processed_row_to_csv`:
`x if x else ""` fields test truthiness, `x if x is not None else ""`
fields test against null only. -/
def mkCsvRow (p : List JVal) (timestamp : JVal) : CsvRow :=
  { scrape_datetime := timestamp
    date := orEmptyIfFalsy (p.getD 0 JVal.null)
    installation := orEmptyIfFalsy (p.getD 1 JVal.null)
    oil_production := orEmptyIfNull (p.getD 11 JVal.null)
    gas_production := orEmptyIfNull (p.getD 12 JVal.null)
    oil_equivalents_boe := orEmptyIfNull (p.getD 14 JVal.null)
    operator := orEmptyIfFalsy (p.getD 2 JVal.null)
    type := orEmptyIfFalsy (p.getD 3 JVal.null)
    estado := orEmptyIfFalsy (p.getD 4 JVal.null)
    city := orEmptyIfFalsy (p.getD 5 JVal.null)
    atendimento_campo := orEmptyIfFalsy (p.getD 6 JVal.null)
    campo := orEmptyIfFalsy (p.getD 7 JVal.null)
    quantity := orEmptyIfNull (p.getD 13 JVal.null)
    code := orEmptyIfNull (p.getD 9 JVal.null)
    status := orEmptyIfNull (p.getD 10 JVal.null) }

/-- `convert_processed_row_to_csv`: project a decoded row, keeping it only
when its date field is truthy. -/
def convert_processed_row_to_csv (p : List JVal) (timestamp : JVal) :
    Option CsvRow :=
  let row := mkCsvRow p timestamp
  if truthy row.date then some row else none

/-- The loop of `process_data_with_binary_masks`: decode each row with the
last decoded row as context (`processed_rows[-1]`), project it, and keep
the non-rejected records in order. -/
def processDataGo (dicts : DictMap) (timestamp : JVal) :
    List RowObj → Option (List JVal) → List CsvRow
  | [], _ => []
  | rowData :: rest, prev =>
    let p := process_row_with_binary_masks rowData prev dicts
    match convert_processed_row_to_csv p timestamp with
    | some c => c :: processDataGo dicts timestamp rest (some p)
    | none => processDataGo dicts timestamp rest (some p)

/-- `process_data_with_binary_masks`: the batch driver. -/
def process_data_with_binary_masks (dataRows : List RowObj)
    (dicts : DictMap) (timestamp : JVal) : List CsvRow :=
  processDataGo dicts timestamp dataRows none

/-- Candidate test of `find_rows`: the node carries a `C` field holding a
list. -/
def hasCList (fields : RowObj) : Bool :=
  match getField fields "C" with
  | some (.arr _) => true
  | _ => false

mutual

/-- `find_rows` of `extract_data_from_json`: collect every mapping node
carrying a list-valued `C`, in depth-first encounter order, recursing
through mapping values (in insertion order) and list items. -/
def find_rows : JVal → List RowObj
  | .obj fs => (if hasCList fs then [fs] else []) ++ findRowsFields fs
  | .arr xs => findRowsItems xs
  | _ => []

/-- Recursion of `find_rows` over a mapping's values. -/
def findRowsFields : RowObj → List RowObj
  | [] => []
  | (_, v) :: rest => find_rows v ++ findRowsFields rest

/-- Recursion of `find_rows` over a list's items. -/
def findRowsItems : List JVal → List RowObj
  | [] => []
  | v :: rest => find_rows v ++ findRowsItems rest

end

/-- Python `row.get(key) is not None`: the key is present with a non-null
value. -/
def hasNonNull (row : RowObj) (key : String) : Bool :=
  match getField row key with
  | some .null => false
  | some _ => true
  | none => false

/-- Filter of `extract_data_from_json`: keep rows whose `Ø` or `R` key is
present with a non-null value. -/
def qualifiesRow (row : RowObj) : Bool :=
  hasNonNull row "Ø" || hasNonNull row "R"

/-- Dictionary construction of `extract_data_from_json`: slots `G1..G10`
from source tables `D0..D9` of the first row set's `ValueDicts`, a missing
table defaulting to the empty list. -/
def mkDictionaries (valueDicts : RowObj) : DictMap :=
  [("G1", asArr ((getField valueDicts "D0").getD (JVal.arr []))),
   ("G2", asArr ((getField valueDicts "D1").getD (JVal.arr []))),
   ("G3", asArr ((getField valueDicts "D2").getD (JVal.arr []))),
   ("G4", asArr ((getField valueDicts "D3").getD (JVal.arr []))),
   ("G5", asArr ((getField valueDicts "D4").getD (JVal.arr []))),
   ("G6", asArr ((getField valueDicts "D5").getD (JVal.arr []))),
   ("G7", asArr ((getField valueDicts "D6").getD (JVal.arr []))),
   ("G8", asArr ((getField valueDicts "D7").getD (JVal.arr []))),
   ("G9", asArr ((getField valueDicts "D8").getD (JVal.arr []))),
   ("G10", asArr ((getField valueDicts "D9").getD (JVal.arr [])))]

/-- Navigation step `json_data.get("results", [])` of
`extract_data_from_json`. -/
def resultsList (j : JVal) : List JVal :=
  asArr ((getField (asObj j) "results").getD (JVal.arr []))

/-- Navigation `results[0].get("result", {}).get("data", {})`. -/
def resultDataOf (j : JVal) : RowObj :=
  asObj ((getField (asObj ((getField (asObj ((resultsList j).getD 0
    JVal.null)) "result").getD (JVal.obj []))) "data").getD (JVal.obj []))

/-- Navigation `result_data.get("dsr", {}).get("DS", [])`. -/
def dsListOf (j : JVal) : JVal :=
  (getField (asObj ((getField (resultDataOf j) "dsr").getD (JVal.obj [])))
    "DS").getD (JVal.arr [])

/-- Navigation `ds_list[0].get("ValueDicts", {})`. -/
def valueDictsOf (j : JVal) : RowObj :=
  asObj ((getField (asObj ((asArr (dsListOf j)).getD 0 JVal.null))
    "ValueDicts").getD (JVal.obj []))

/-- `extract_data_from_json`: navigate to the row-set container, build the
dictionaries and the filtered row list; raises (as `Except.error`) when
`results` is empty or the `DS` list is missing or falsy. -/
def extract_data_from_json (j : JVal) :
    Except String (List RowObj × DictMap × JVal) :=
  if (resultsList j).isEmpty then
    Except.error "No results found in JSON data"
  else if truthy (dsListOf j) = false then
    Except.error "No DS data found in JSON structure"
  else
    Except.ok ((find_rows j).filter qualifiesRow,
      mkDictionaries (valueDictsOf j),
      (getField (resultDataOf j) "timestamp").getD (JVal.str ""))

/-! ### Specification-side definitions

These definitions follow the specification's words rather than the
source's shape; theorems below compare them with the source embedding. -/

/-- Decoded-row sequence of a batch, written as the specification's
contract reads: each row node is decoded with the just-decoded previous
row as context, whether or not its projection was rejected. -/
def decodeAllFrom (dicts : DictMap) :
    List RowObj → Option (List JVal) → List (List JVal)
  | [], _ => []
  | rowData :: rest, prev =>
    let p := process_row_with_binary_masks rowData prev dicts
    p :: decodeAllFrom dicts rest (some p)

/-- Depth-first collection of row candidates, written as an explicit
worklist traversal: a mapping node carrying a list-valued `C` is a
candidate, and traversal recurses through mapping values (in insertion
order) and list items at every depth, in encounter order. -/
def dfsCollect : List JVal → List RowObj
  | [] => []
  | JVal.obj fs :: rest =>
    (if hasCList fs then [fs] else []) ++ dfsCollect (fs.map Prod.snd ++ rest)
  | JVal.arr xs :: rest => dfsCollect (xs ++ rest)
  | JVal.null :: rest => dfsCollect rest
  | JVal.str _ :: rest => dfsCollect rest
  | JVal.int _ :: rest => dfsCollect rest
termination_by l => sizeOf l
decreasing_by
  · have hMap : ∀ (l : List (String × JVal)),
        sizeOf (l.map Prod.snd) ≤ sizeOf l := by
      intro l
      induction l with
      | nil => simp
      | cons kv tl ih =>
        obtain ⟨k, v⟩ := kv
        simp only [List.map_cons, List.cons.sizeOf_spec, Prod.mk.sizeOf_spec]
        omega
    have hApp : ∀ (a b : List JVal), sizeOf (a ++ b) + 1 = sizeOf a + sizeOf b := by
      intro a b
      induction a with
      | nil => simp; omega
      | cons x xs ih => simp only [List.cons_append, List.cons.sizeOf_spec]; omega
    have h1 := hMap fs
    have h2 := hApp (fs.map Prod.snd) rest
    simp only [List.cons.sizeOf_spec, JVal.obj.sizeOf_spec]
    omega
  · have hApp : ∀ (a b : List JVal), sizeOf (a ++ b) + 1 = sizeOf a + sizeOf b := by
      intro a b
      induction a with
      | nil => simp; omega
      | cons x xs ih => simp only [List.cons_append, List.cons.sizeOf_spec]; omega
    have h2 := hApp xs rest
    simp only [List.cons.sizeOf_spec, JVal.arr.sizeOf_spec]
    omega
  · simp only [List.cons.sizeOf_spec]; omega
  · simp only [List.cons.sizeOf_spec]; omega
  · simp only [List.cons.sizeOf_spec]; omega

/-- Retention test, as the specification reads: the candidate carries a
non-null repeat-mask or a non-null null-mask field. -/
def specQualifies (row : RowObj) : Bool :=
  hasNonNull row "R" || hasNonNull row "Ø"

/-- Specification condition for the fatal structural error: the expected
row-set container is entirely absent (no `results` entry, or no truthy
`DS` list). -/
def rowSetContainerAbsent (j : JVal) : Bool :=
  (resultsList j).isEmpty || !truthy (dsListOf j)

/-! ### Concrete sample inputs used by witnesses and counterexamples -/

/-- ValueDicts sample: one two-entry dictionary table for slot `G1`. -/
def platformVD : RowObj :=
  [("D0", JVal.arr [JVal.str "Platform-A", JVal.str "Platform-B"])]

/-- Dictionaries with `G1 = [A]` and `G2 = [B]`. -/
def bugDicts : DictMap :=
  mkDictionaries [("D0", JVal.arr [JVal.str "A"]),
    ("D1", JVal.arr [JVal.str "B"])]

/-- Row whose null mask frees exactly slots 1 and 2
(`32761 = 0b111111111111001`) with a non-digit first sparse entry. -/
def bugRow : RowObj :=
  [("C", JVal.arr [JVal.str "x", JVal.str "0"]), ("R", JVal.int 0),
   ("Ø", JVal.int 32761)]

/-- Row inheriting slot 0 (`R = 1`) while its null bit 0 is also set. -/
def inheritRow : RowObj :=
  [("C", JVal.arr []), ("R", JVal.int 1), ("Ø", JVal.int 1)]

/-- Previous decoded row with a distinctive date slot. -/
def prevSample : List JVal :=
  JVal.str "2024-05-01" :: List.replicate 14 JVal.null

/-- Decoded row whose measure slot `M0` holds the empty string. -/
def emptyMeasureRow : List JVal :=
  List.replicate 11 JVal.null
    ++ [JVal.str "", JVal.null, JVal.null, JVal.null]

/-- Response tree sample: one data row, one summary row (no masks), one
dictionary table. -/
def sampleTree : JVal :=
  JVal.obj [("results", JVal.arr [JVal.obj [("result", JVal.obj
    [("data", JVal.obj
      [("timestamp", JVal.str "T0"),
       ("dsr", JVal.obj [("DS", JVal.arr [JVal.obj
         [("PH", JVal.arr
           [JVal.obj [("C", JVal.arr [JVal.int 1700000000000]),
              ("R", JVal.int 0), ("Ø", JVal.int 32766)],
            JVal.obj [("C", JVal.arr [JVal.int 9])]]),
          ("ValueDicts", JVal.obj [("D0",
            JVal.arr [JVal.str "A"])])]])])])])]])]

/-! ### Helper lemmas -/

theorem sizeOf_list_append (a b : List JVal) :
    sizeOf (a ++ b) + 1 = sizeOf a + sizeOf b := by
  induction a with
  | nil => simp; omega
  | cons x xs ih => simp only [List.cons_append, List.cons.sizeOf_spec]; omega

theorem sizeOf_map_snd (l : RowObj) :
    sizeOf (l.map Prod.snd) ≤ sizeOf l := by
  induction l with
  | nil => simp
  | cons kv tl ih =>
    obtain ⟨k, v⟩ := kv
    simp only [List.map_cons, List.cons.sizeOf_spec, Prod.mk.sizeOf_spec]
    omega

theorem processColsAux_length (dicts : DictMap) (c : List JVal) (r o : Nat)
    (prev : Option (List JVal)) :
    ∀ (fuel col cursor : Nat),
      (processColsAux dicts c r o prev fuel col cursor).1.length = fuel := by
  intro fuel
  induction fuel with
  | zero => intro col cursor; rfl
  | succ f ih =>
    intro col cursor
    simp only [processColsAux]
    split
    · simp [ih]
    · split
      · simp [ih]
      · split
        · simp [ih]
        · simp [ih]

theorem processColsAux_getD_repeat (dicts : DictMap) (c : List JVal)
    (r o : Nat) (prev : Option (List JVal)) :
    ∀ (k fuel col cursor : Nat), k < fuel → bitAt r (col + k) = 1 →
      (processColsAux dicts c r o prev fuel col cursor).1.getD k JVal.null
        = prevVal prev (col + k) := by
  intro k
  induction k with
  | zero =>
    intro fuel col cursor hk hb
    rw [Nat.add_zero] at hb ⊢
    match fuel, hk with
    | f + 1, _ =>
      simp only [processColsAux, hb]
      simp
  | succ k ih =>
    intro fuel col cursor hk hb
    have hb1 : bitAt r (col + 1 + k) = 1 := by
      rw [show col + 1 + k = col + (k + 1) by omega]; exact hb
    match fuel, hk with
    | f + 1, hk =>
      have hkf : k < f := by omega
      rw [show col + (k + 1) = col + 1 + k by omega]
      simp only [processColsAux]
      split
      · simpa using ih f (col + 1) cursor hkf hb1
      · split
        · simpa using ih f (col + 1) cursor hkf hb1
        · split
          · simpa using ih f (col + 1) _ hkf hb1
          · simpa using ih f (col + 1) cursor hkf hb1

theorem orEmptyIfNull_spec (v : JVal) :
    (orEmptyIfNull v = JVal.str "" ↔ (v = JVal.null ∨ v = JVal.str ""))
    ∧ (v ≠ JVal.null → orEmptyIfNull v = v)
    ∧ (v = JVal.null → orEmptyIfNull v = JVal.str "") := by
  cases v <;> simp [orEmptyIfNull]

theorem orEmptyIfFalsy_spec (v : JVal) :
    (truthy v = false → orEmptyIfFalsy v = JVal.str "")
    ∧ (truthy v = true → orEmptyIfFalsy v = v) := by
  by_cases h : truthy v <;> simp [orEmptyIfFalsy, h]

theorem consumeValue_dict_spec (d : DictMap) (name : String)
    (table : List JVal) (raw : JVal) (hname : name ≠ "G0")
    (hl : lookupDict d name = some table) :
    (∀ k : Int, coerceIndex raw = some k →
      ((0 ≤ k ∧ k < (table.length : Int)) →
        (consumeValue d name raw).1 = table.getD k.toNat JVal.null)
      ∧ (¬(0 ≤ k ∧ k < (table.length : Int)) →
        (consumeValue d name raw).1
          = JVal.str ("Index_" ++ toString k ++ "_OutOfRange")))
    ∧ (coerceIndex raw = none → (consumeValue d name raw).1 = raw)
    ∧ (coerceIndex raw = none → (consumeValue d name raw).2 = false) := by
  unfold consumeValue
  rw [if_neg hname, hl]
  refine ⟨fun k hk => ?_, fun hk => ?_, fun hk => ?_⟩
  · rw [hk]
    constructor
    · intro hr; simp only [if_pos hr]
    · intro hr; simp only [if_neg hr]
  · rw [hk]
  · rw [hk]

theorem convert_some_truthy (p : List JVal) (ts : JVal) (c : CsvRow)
    (h : convert_processed_row_to_csv p ts = some c) :
    truthy c.date = true := by
  simp only [convert_processed_row_to_csv] at h
  by_cases hd : truthy (mkCsvRow p ts).date
  · rw [if_pos hd] at h
    cases h
    exact hd
  · rw [if_neg hd] at h
    cases h

theorem processDataGo_eq_filterMap (dicts : DictMap) (ts : JVal) :
    ∀ (rows : List RowObj) (prev : Option (List JVal)),
      processDataGo dicts ts rows prev
        = (decodeAllFrom dicts rows prev).filterMap
            (fun p => convert_processed_row_to_csv p ts) := by
  intro rows
  induction rows with
  | nil => intro prev; rfl
  | cons r rest ih =>
    intro prev
    simp only [processDataGo, decodeAllFrom, List.filterMap_cons]
    cases h : convert_processed_row_to_csv
        (process_row_with_binary_masks r prev dicts) ts with
    | none => simp only [h, ih]
    | some c => simp only [h, ih]

theorem decodeAllFrom_length (dicts : DictMap) :
    ∀ (rows : List RowObj) (prev : Option (List JVal)),
      (decodeAllFrom dicts rows prev).length = rows.length := by
  intro rows
  induction rows with
  | nil => intro prev; rfl
  | cons r rest ih => intro prev; simp [decodeAllFrom, ih]

theorem decodeAllFrom_getD_succ (dicts : DictMap) :
    ∀ (rows : List RowObj) (prev : Option (List JVal)) (i : Nat),
      i + 1 < rows.length →
      (decodeAllFrom dicts rows prev).getD (i + 1) []
        = process_row_with_binary_masks (rows.getD (i + 1) [])
            (some ((decodeAllFrom dicts rows prev).getD i [])) dicts := by
  intro rows
  induction rows with
  | nil => intro prev i h; simp at h
  | cons r rest ih =>
    intro prev i h
    cases i with
    | zero =>
      cases rest with
      | nil => simp at h
      | cons r2 rest2 => rfl
    | succ i =>
      have h2 : i + 1 < rest.length := by
        simpa using Nat.lt_of_succ_lt_succ (by simpa using h)
      simpa only [decodeAllFrom, List.getD_cons_succ]
        using ih (some (process_row_with_binary_masks r prev dicts)) i h2

theorem processDataGo_date (dicts : DictMap) (ts : JVal) :
    ∀ (rows : List RowObj) (prev : Option (List JVal)) (c : CsvRow),
      c ∈ processDataGo dicts ts rows prev → truthy c.date = true := by
  intro rows
  induction rows with
  | nil => intro prev c h; simp [processDataGo] at h
  | cons r rest ih =>
    intro prev c h
    simp only [processDataGo] at h
    cases hc : convert_processed_row_to_csv
        (process_row_with_binary_masks r prev dicts) ts with
    | none =>
      rw [hc] at h
      exact ih _ c h
    | some c2 =>
      rw [hc] at h
      rcases List.mem_cons.mp h with h1 | h1
      · subst h1; exact convert_some_truthy _ _ _ hc
      · exact ih _ c h1

theorem findRowsFields_eq_flatMap : ∀ (fs : RowObj),
    findRowsFields fs = (fs.map Prod.snd).flatMap find_rows := by
  intro fs
  induction fs with
  | nil => rfl
  | cons kv rest ih =>
    obtain ⟨k, v⟩ := kv
    simp [findRowsFields, ih]

theorem findRowsItems_eq_flatMap : ∀ (xs : List JVal),
    findRowsItems xs = xs.flatMap find_rows := by
  intro xs
  induction xs with
  | nil => rfl
  | cons v rest ih => simp [findRowsItems, ih]

theorem dfsCollect_eq_flatMap : ∀ (l : List JVal),
    dfsCollect l = l.flatMap find_rows
  | [] => by simp [dfsCollect]
  | JVal.obj fs :: rest => by
    rw [dfsCollect, dfsCollect_eq_flatMap (fs.map Prod.snd ++ rest)]
    simp [find_rows, findRowsFields_eq_flatMap]
  | JVal.arr xs :: rest => by
    rw [dfsCollect, dfsCollect_eq_flatMap (xs ++ rest)]
    simp [find_rows, findRowsItems_eq_flatMap]
  | JVal.null :: rest => by
    rw [dfsCollect, dfsCollect_eq_flatMap rest]
    simp [find_rows]
  | JVal.str s :: rest => by
    rw [dfsCollect, dfsCollect_eq_flatMap rest]
    simp [find_rows]
  | JVal.int n :: rest => by
    rw [dfsCollect, dfsCollect_eq_flatMap rest]
    simp [find_rows]
termination_by l => sizeOf l
decreasing_by
  · have h1 := sizeOf_map_snd fs
    have h2 := sizeOf_list_append (fs.map Prod.snd) rest
    simp only [List.cons.sizeOf_spec, JVal.obj.sizeOf_spec]
    omega
  · have h2 := sizeOf_list_append xs rest
    simp only [List.cons.sizeOf_spec, JVal.arr.sizeOf_spec]
    omega
  · simp only [List.cons.sizeOf_spec]; omega
  · simp only [List.cons.sizeOf_spec]; omega
  · simp only [List.cons.sizeOf_spec]; omega

theorem extract_ok_rows (j : JVal) (rows : List RowObj) (d : DictMap)
    (ts : JVal) (h : extract_data_from_json j = Except.ok (rows, d, ts)) :
    rows = (find_rows j).filter qualifiesRow := by
  unfold extract_data_from_json at h
  split at h
  · exact absurd h (by simp)
  · split at h
    · exact absurd h (by simp)
    · simp only [Except.ok.injEq, Prod.mk.injEq] at h
      exact h.1.symm

/-! ### Claim theorems -/

/-- C1: for every row, every column slot `i` in 0..14 and every decoder
state, a set repeat bit makes slot `i` a verbatim copy of the previous
decoded row's slot `i` — regardless of the null-mask bit at `i` — and
null when there is no previous decoded row. -/
theorem repeat_bit_inheritance (row : RowObj) (prev : Option (List JVal))
    (dicts : DictMap) (i : Nat) (hi : i < 15)
    (hb : bitAt (maskOf row "R") i = 1) :
    (process_row_with_binary_masks row prev dicts).getD i JVal.null
      = prevVal prev i
    ∧ (prev = none →
      (process_row_with_binary_masks row prev dicts).getD i JVal.null
        = JVal.null) := by
  have h := processColsAux_getD_repeat dicts (cValues row) (maskOf row "R")
    (maskOf row "Ø") prev i 15 0 0 hi (by simpa using hb)
  constructor
  · simpa [process_row_with_binary_masks] using h
  · intro hp
    subst hp
    simpa [process_row_with_binary_masks, prevVal] using h

/-- C1 witness: slot 0 with repeat bit 1 and null bit 1 copies the
previous date slot verbatim, and resolves to null on the first row. -/
theorem repeat_bit_inheritance_witness :
    (process_row_with_binary_masks inheritRow (some prevSample) []).getD 0
        JVal.null = prevVal (some prevSample) 0
    ∧ (process_row_with_binary_masks inheritRow none []).getD 0 JVal.null
        = JVal.null :=
  ⟨(repeat_bit_inheritance inheritRow (some prevSample) [] 0 (by decide)
      (by decide)).1,
   (repeat_bit_inheritance inheritRow none [] 0 (by decide)
      (by decide)).2 rfl⟩

/-- C2: evaluation at the failing input (`bugRow` with `bugDicts`): slots
1 and 2 both reach the consume branch, slot 1 passes its non-coercible
entry "x" through but the `continue` skips the cursor increment, so slot
2 re-reads the same entry instead of the next one ("0", which the
dictionary maps to "B"), and the final cursor is 0, not 2. -/
theorem sparse_cursor_not_advanced :
    process_row_with_binary_masks bugRow none bugDicts
      = [JVal.null, JVal.str "x", JVal.str "x", JVal.null, JVal.null,
         JVal.null, JVal.null, JVal.null, JVal.null, JVal.null, JVal.null,
         JVal.null, JVal.null, JVal.null, JVal.null]
    ∧ (processColsAux bugDicts [JVal.str "x", JVal.str "0"] 0 32761 none
        15 0 0).2 = 0
    ∧ (consumeValue bugDicts (colName 2) (JVal.str "0")).1 = JVal.str "B"
    ∧ (consumeValue bugDicts (colName 1) (JVal.str "x")).2 = false :=
  ⟨by decide, by decide, by decide, by decide⟩

/-- C3: a dictionary-backed slot (G1..G10) resolves a consumed entry by
ordinal lookup: a coerced in-range index maps through the table, an
out-of-range index (at or beyond the table length, or negative) yields
the placeholder string naming it, and a non-coercible entry passes
through unchanged; resolution is a total function and never fails. -/
theorem dictionary_index_resolution (vd : RowObj) (col : Nat)
    (h1 : 1 ≤ col) (h2 : col ≤ 10) (raw : JVal) :
    (lookupDict (mkDictionaries vd) (colName col)).isSome = true
    ∧ ∀ table, lookupDict (mkDictionaries vd) (colName col) = some table →
      (∀ k : Int, coerceIndex raw = some k →
        ((0 ≤ k ∧ k < (table.length : Int)) →
          (consumeValue (mkDictionaries vd) (colName col) raw).1
            = table.getD k.toNat JVal.null)
        ∧ (¬(0 ≤ k ∧ k < (table.length : Int)) →
          (consumeValue (mkDictionaries vd) (colName col) raw).1
            = JVal.str ("Index_" ++ toString k ++ "_OutOfRange")))
      ∧ (coerceIndex raw = none →
        (consumeValue (mkDictionaries vd) (colName col) raw).1 = raw) := by
  constructor
  · interval_cases col <;>
      simp [mkDictionaries, colName, columns, lookupDict]
  · intro table ht
    have hname : colName col ≠ "G0" := by
      interval_cases col <;> decide
    exact ⟨(consumeValue_dict_spec _ _ _ raw hname ht).1,
      (consumeValue_dict_spec _ _ _ raw hname ht).2.1⟩

/-- C3 witness: with table `[Platform-A, Platform-B]` at G1, entry "1"
resolves to Platform-B, entry "5" to the placeholder, and the non-numeric
entry "bbl" passes through. -/
theorem dictionary_index_resolution_witness :
    (consumeValue (mkDictionaries platformVD) (colName 1)
        (JVal.str "1")).1 = JVal.str "Platform-B"
    ∧ (consumeValue (mkDictionaries platformVD) (colName 1)
        (JVal.str "5")).1 = JVal.str "Index_5_OutOfRange"
    ∧ (consumeValue (mkDictionaries platformVD) (colName 1)
        (JVal.str "bbl")).1 = JVal.str "bbl" := by
  have hc : lookupDict (mkDictionaries platformVD) (colName 1)
      = some [JVal.str "Platform-A", JVal.str "Platform-B"] := by decide
  refine ⟨?_, ?_, ?_⟩
  · have h := ((dictionary_index_resolution platformVD 1 (by decide)
      (by decide) (JVal.str "1")).2 _ hc).1 1 (by decide)
    exact (h.1 (by decide)).trans (by decide)
  · have h := ((dictionary_index_resolution platformVD 1 (by decide)
      (by decide) (JVal.str "5")).2 _ hc).1 5 (by decide)
    exact (h.2 (by decide)).trans (by decide)
  · exact ((dictionary_index_resolution platformVD 1 (by decide)
      (by decide) (JVal.str "bbl")).2 _ hc).2 (by decide)

/-- C4 counterexample: the raw entry 1000 at slot G0 is below the seconds
threshold: the claim says it is interpreted as seconds and rendered as
the date "1970-01-01", but the code returns it unchanged (only values
above 10^9 are date-rendered). -/
theorem low_timestamp_returned_unchanged :
    (consumeValue (mkDictionaries []) (colName 0) (JVal.int 1000)).1
      = JVal.int 1000
    ∧ convert_timestamp (JVal.int 1000) = JVal.int 1000
    ∧ formatDate 1000 = "1970-01-01"
    ∧ JVal.int 1000 ≠ JVal.str (formatDate 1000) :=
  ⟨by decide, by decide, by decide, by decide⟩

/-- C4 amended: a raw entry at slot G0 is rendered as a calendar date
only when its parsed value exceeds 10^9 — above 10^12 it is read as
milliseconds, in (10^9, 10^12] as seconds, in both cases only when the
resulting date is representable (datetime years 1..9999) — and every
other entry (values at or below 10^9, zero, unparsable strings, and
out-of-range dates) is returned as is, a parsed numeric string as its
number; no error is raised. -/
theorem convert_timestamp_thresholds (n : Int) (s : String) :
    (n > 1000000000000 → fromtimestampOK (n.fdiv 1000) = true →
      convert_timestamp (JVal.int n) = JVal.str (formatDate (n.fdiv 1000)))
    ∧ (n > 1000000000 → ¬n > 1000000000000 → fromtimestampOK n = true →
      convert_timestamp (JVal.int n) = JVal.str (formatDate n))
    ∧ (¬n > 1000000000 → convert_timestamp (JVal.int n) = JVal.int n)
    ∧ (n > 1000000000000 → fromtimestampOK (n.fdiv 1000) = false →
      convert_timestamp (JVal.int n) = JVal.int n)
    ∧ (n > 1000000000 → ¬n > 1000000000000 → fromtimestampOK n = false →
      convert_timestamp (JVal.int n) = JVal.int n)
    ∧ (parseIntStr s = some n →
      convert_timestamp (JVal.str s) = convert_timestamp (JVal.int n))
    ∧ (parseIntStr s = none → convert_timestamp (JVal.str s) = JVal.str s)
    ∧ convert_timestamp JVal.null = JVal.null := by
  refine ⟨fun h1 h2 => ?_, fun h1 h0 h2 => ?_, fun h1 => ?_,
    fun h1 h2 => ?_, fun h1 h0 h2 => ?_, fun hs => ?_, fun hs => ?_, rfl⟩
  · have hn : n ≠ 0 := by omega
    simp [convert_timestamp, tsFromNum, hn, h1, h2]
  · have hn : n ≠ 0 := by omega
    simp [convert_timestamp, tsFromNum, hn, h0, h1, h2]
  · rcases eq_or_ne n 0 with h0 | h0
    · subst h0; simp [convert_timestamp]
    · simp [convert_timestamp, tsFromNum, h0, h1,
        show ¬n > 1000000000000 by omega]
  · have hn : n ≠ 0 := by omega
    simp [convert_timestamp, tsFromNum, hn, h1, h2]
  · have hn : n ≠ 0 := by omega
    simp [convert_timestamp, tsFromNum, hn, h0, h1, h2]
  · have hne : s ≠ "" := by
      intro he
      rw [he] at hs
      simp [parseIntStr] at hs
    simp only [convert_timestamp, if_pos hne, hs]
    rcases eq_or_ne n 0 with h0 | h0
    · subst h0; simp [tsFromNum]
    · simp [h0]
  · by_cases hne : s = ""
    · subst hne; simp [convert_timestamp]
    · simp [convert_timestamp, hne, hs]

/-- C4 amended witness: a millisecond-scale entry renders as a date, an
unparsable string passes through. -/
theorem convert_timestamp_thresholds_witness :
    convert_timestamp (JVal.int 1700000000000)
      = JVal.str (formatDate ((1700000000000 : Int).fdiv 1000))
    ∧ convert_timestamp (JVal.str "abc") = JVal.str "abc" :=
  ⟨(convert_timestamp_thresholds 1700000000000 "abc").1 (by decide)
      (by decide),
   (convert_timestamp_thresholds 1700000000000 "abc").2.2.2.2.2.2.1
      (by decide)⟩

/-- C5: the decode run errors exactly when the row-set container is
absent (no `results` entry or no truthy `DS` list); an accepted input
with zero qualifying rows yields an empty output; and per-row decoding is
a total function always producing a full 15-slot row, so no value-level
anomaly can raise. -/
theorem error_policy_structural_only :
    (∀ j : JVal, (extract_data_from_json j).isOk = false
        ↔ rowSetContainerAbsent j = true)
    ∧ (∀ (j : JVal) (rows : List RowObj) (d : DictMap) (ts : JVal),
        extract_data_from_json j = Except.ok (rows, d, ts) → rows = [] →
        process_data_with_binary_masks rows d ts = [])
    ∧ (∀ (row : RowObj) (prev : Option (List JVal)) (d : DictMap),
        (process_row_with_binary_masks row prev d).length = 15) := by
  refine ⟨fun j => ?_, fun j rows d ts hok hnil => ?_, fun row prev d => ?_⟩
  · unfold extract_data_from_json rowSetContainerAbsent
    by_cases h1 : (resultsList j).isEmpty
    · simp [h1, Except.isOk, Except.toBool]
    · by_cases h2 : truthy (dsListOf j) = false
      · simp [h1, h2, Except.isOk, Except.toBool]
      · simp [h1, h2, Except.isOk, Except.toBool]
  · subst hnil; rfl
  · simpa [process_row_with_binary_masks] using
      processColsAux_length d (cValues row) (maskOf row "R")
        (maskOf row "Ø") prev 15 0 0

/-- C6: the batch driver's output is the order-preserving projection
(filterMap) of the decoded-row sequence; that sequence has one decoded
row per input row, its first row is decoded with empty context, and row
n+1 is always decoded with decoded row n itself as context — whether or
not row n's projection was kept. -/
theorem batch_driver_sequential (rows : List RowObj) (dicts : DictMap)
    (ts : JVal) :
    (process_data_with_binary_masks rows dicts ts
      = (decodeAllFrom dicts rows none).filterMap
          (fun p => convert_processed_row_to_csv p ts))
    ∧ (decodeAllFrom dicts rows none).length = rows.length
    ∧ (∀ (r : RowObj) (rest : List RowObj), rows = r :: rest →
        (decodeAllFrom dicts rows none).getD 0 []
          = process_row_with_binary_masks r none dicts)
    ∧ (∀ i : Nat, i + 1 < rows.length →
        (decodeAllFrom dicts rows none).getD (i + 1) []
          = process_row_with_binary_masks (rows.getD (i + 1) [])
              (some ((decodeAllFrom dicts rows none).getD i [])) dicts) := by
  refine ⟨processDataGo_eq_filterMap dicts ts rows none,
    decodeAllFrom_length dicts rows none, fun r rest hr => ?_,
    fun i hi => decodeAllFrom_getD_succ dicts rows none i hi⟩
  subst hr
  rfl

/-- C7: a projected record is kept only with a truthy date field: a
decoded row whose mapped date field is empty or missing is excluded
entirely, and every record in the batch output has a non-empty, non-null
date. -/
theorem date_required_for_output :
    (∀ (p : List JVal) (ts : JVal),
      ((mkCsvRow p ts).date = JVal.str ""
          ∨ (mkCsvRow p ts).date = JVal.null) →
        convert_processed_row_to_csv p ts = none)
    ∧ (∀ (rows : List RowObj) (d : DictMap) (ts : JVal) (c : CsvRow),
        c ∈ process_data_with_binary_masks rows d ts →
          truthy c.date = true ∧ c.date ≠ JVal.str ""
            ∧ c.date ≠ JVal.null) := by
  constructor
  · intro p ts h
    have hf : truthy (mkCsvRow p ts).date = false := by
      rcases h with h | h <;> rw [h] <;> rfl
    simp [convert_processed_row_to_csv, hf]
  · intro rows d ts c hc
    have ht := processDataGo_date d ts rows none c hc
    refine ⟨ht, fun he => ?_, fun he => ?_⟩
    · rw [he] at ht
      exact absurd ht (by decide)
    · rw [he] at ht
      exact absurd ht (by decide)

/-- C8: the rows the extractor returns are exactly the depth-first
worklist collection of mapping nodes that carry a list-valued sparse
value sequence — recursing through mapping and list containers at every
depth, in encounter order — filtered to candidates carrying a non-null
repeat-mask or null-mask field. -/
theorem row_locator_dfs_filter (j : JVal) (rows : List RowObj)
    (d : DictMap) (ts : JVal)
    (h : extract_data_from_json j = Except.ok (rows, d, ts)) :
    rows = (dfsCollect [j]).filter specQualifies := by
  rw [extract_ok_rows j rows d ts h]
  have hd : dfsCollect [j] = find_rows j := by
    rw [dfsCollect_eq_flatMap]
    simp
  rw [hd]
  refine List.filter_congr fun r hr => ?_
  simp [qualifiesRow, specQualifies, Bool.or_comm]

/-- C8 witness: on the sample tree the extractor keeps exactly the one
masked row, matching the filtered depth-first collection. -/
theorem row_locator_dfs_filter_witness :
    [[("C", JVal.arr [JVal.int 1700000000000]), ("R", JVal.int 0),
      ("Ø", JVal.int 32766)]]
      = (dfsCollect [sampleTree]).filter specQualifies :=
  row_locator_dfs_filter sampleTree
    [[("C", JVal.arr [JVal.int 1700000000000]), ("R", JVal.int 0),
      ("Ø", JVal.int 32766)]]
    (mkDictionaries [("D0", JVal.arr [JVal.str "A"])]) (JVal.str "T0")
    (by decide)

/-- C9 counterexample: a measure slot holding the empty string — not
null — still renders as the empty string, so "empty iff the slot is
exactly null" fails in the only-if direction. -/
theorem measure_empty_without_null :
    (mkCsvRow emptyMeasureRow (JVal.str "T")).oil_production = JVal.str ""
    ∧ emptyMeasureRow.getD 11 JVal.null ≠ JVal.null :=
  ⟨by decide, by decide⟩

/-- C9 amended: each numeric measure field equals its source slot unless
that slot is null (in particular a numeric zero is preserved), so it
renders as the empty string exactly when the slot is null or is itself
the empty string. -/
theorem measure_fields_empty_iff (p : List JVal) (ts : JVal) :
    ((mkCsvRow p ts).oil_production = JVal.str ""
      ↔ (p.getD 11 JVal.null = JVal.null
          ∨ p.getD 11 JVal.null = JVal.str ""))
    ∧ (p.getD 11 JVal.null ≠ JVal.null →
        (mkCsvRow p ts).oil_production = p.getD 11 JVal.null)
    ∧ ((mkCsvRow p ts).gas_production = JVal.str ""
      ↔ (p.getD 12 JVal.null = JVal.null
          ∨ p.getD 12 JVal.null = JVal.str ""))
    ∧ (p.getD 12 JVal.null ≠ JVal.null →
        (mkCsvRow p ts).gas_production = p.getD 12 JVal.null)
    ∧ ((mkCsvRow p ts).quantity = JVal.str ""
      ↔ (p.getD 13 JVal.null = JVal.null
          ∨ p.getD 13 JVal.null = JVal.str ""))
    ∧ (p.getD 13 JVal.null ≠ JVal.null →
        (mkCsvRow p ts).quantity = p.getD 13 JVal.null)
    ∧ ((mkCsvRow p ts).oil_equivalents_boe = JVal.str ""
      ↔ (p.getD 14 JVal.null = JVal.null
          ∨ p.getD 14 JVal.null = JVal.str ""))
    ∧ (p.getD 14 JVal.null ≠ JVal.null →
        (mkCsvRow p ts).oil_equivalents_boe = p.getD 14 JVal.null) :=
  ⟨(orEmptyIfNull_spec _).1, (orEmptyIfNull_spec _).2.1,
   (orEmptyIfNull_spec _).1, (orEmptyIfNull_spec _).2.1,
   (orEmptyIfNull_spec _).1, (orEmptyIfNull_spec _).2.1,
   (orEmptyIfNull_spec _).1, (orEmptyIfNull_spec _).2.1⟩

/-- C10: the projector treats falsy slot values asymmetrically: `code`
(slot 9) and `status` (slot 10) preserve every non-null value — numeric 0
and the empty string included — while date, installation, operator,
type, estado, city, atendimento_campo and campo render every falsy slot
value (null, numeric 0 or empty string alike) as the empty string. -/
theorem projector_falsy_asymmetry (p : List JVal) (ts : JVal) :
    ((p.getD 9 JVal.null ≠ JVal.null →
        (mkCsvRow p ts).code = p.getD 9 JVal.null)
      ∧ (p.getD 9 JVal.null = JVal.null →
        (mkCsvRow p ts).code = JVal.str "")
      ∧ (p.getD 9 JVal.null = JVal.int 0 →
        (mkCsvRow p ts).code = JVal.int 0))
    ∧ ((p.getD 10 JVal.null ≠ JVal.null →
        (mkCsvRow p ts).status = p.getD 10 JVal.null)
      ∧ (p.getD 10 JVal.null = JVal.null →
        (mkCsvRow p ts).status = JVal.str "")
      ∧ (p.getD 10 JVal.null = JVal.str "" →
        (mkCsvRow p ts).status = JVal.str ""))
    ∧ ((truthy (p.getD 0 JVal.null) = false →
        (mkCsvRow p ts).date = JVal.str "")
      ∧ (truthy (p.getD 0 JVal.null) = true →
        (mkCsvRow p ts).date = p.getD 0 JVal.null))
    ∧ ((truthy (p.getD 1 JVal.null) = false →
        (mkCsvRow p ts).installation = JVal.str "")
      ∧ (truthy (p.getD 1 JVal.null) = true →
        (mkCsvRow p ts).installation = p.getD 1 JVal.null))
    ∧ ((truthy (p.getD 2 JVal.null) = false →
        (mkCsvRow p ts).operator = JVal.str "")
      ∧ (truthy (p.getD 2 JVal.null) = true →
        (mkCsvRow p ts).operator = p.getD 2 JVal.null))
    ∧ ((truthy (p.getD 3 JVal.null) = false →
        (mkCsvRow p ts).type = JVal.str "")
      ∧ (truthy (p.getD 3 JVal.null) = true →
        (mkCsvRow p ts).type = p.getD 3 JVal.null)
      ∧ (p.getD 3 JVal.null = JVal.int 0 →
        (mkCsvRow p ts).type = JVal.str ""))
    ∧ ((truthy (p.getD 4 JVal.null) = false →
        (mkCsvRow p ts).estado = JVal.str "")
      ∧ (truthy (p.getD 4 JVal.null) = true →
        (mkCsvRow p ts).estado = p.getD 4 JVal.null))
    ∧ ((truthy (p.getD 5 JVal.null) = false →
        (mkCsvRow p ts).city = JVal.str "")
      ∧ (truthy (p.getD 5 JVal.null) = true →
        (mkCsvRow p ts).city = p.getD 5 JVal.null))
    ∧ ((truthy (p.getD 6 JVal.null) = false →
        (mkCsvRow p ts).atendimento_campo = JVal.str "")
      ∧ (truthy (p.getD 6 JVal.null) = true →
        (mkCsvRow p ts).atendimento_campo = p.getD 6 JVal.null))
    ∧ ((truthy (p.getD 7 JVal.null) = false →
        (mkCsvRow p ts).campo = JVal.str "")
      ∧ (truthy (p.getD 7 JVal.null) = true →
        (mkCsvRow p ts).campo = p.getD 7 JVal.null)) := by
  refine ⟨⟨(orEmptyIfNull_spec _).2.1, (orEmptyIfNull_spec _).2.2,
      fun h => ?_⟩,
    ⟨(orEmptyIfNull_spec _).2.1, (orEmptyIfNull_spec _).2.2,
      fun h => ?_⟩,
    ⟨(orEmptyIfFalsy_spec _).1, (orEmptyIfFalsy_spec _).2⟩,
    ⟨(orEmptyIfFalsy_spec _).1, (orEmptyIfFalsy_spec _).2⟩,
    ⟨(orEmptyIfFalsy_spec _).1, (orEmptyIfFalsy_spec _).2⟩,
    ⟨(orEmptyIfFalsy_spec _).1, (orEmptyIfFalsy_spec _).2, fun h => ?_⟩,
    ⟨(orEmptyIfFalsy_spec _).1, (orEmptyIfFalsy_spec _).2⟩,
    ⟨(orEmptyIfFalsy_spec _).1, (orEmptyIfFalsy_spec _).2⟩,
    ⟨(orEmptyIfFalsy_spec _).1, (orEmptyIfFalsy_spec _).2⟩,
    ⟨(orEmptyIfFalsy_spec _).1, (orEmptyIfFalsy_spec _).2⟩⟩
  · have h9 : p.getD 9 JVal.null ≠ JVal.null := by
      rw [h]
      exact fun he => JVal.noConfusion he
    exact ((orEmptyIfNull_spec (p.getD 9 JVal.null)).2.1 h9).trans h
  · have h10 : p.getD 10 JVal.null ≠ JVal.null := by
      rw [h]
      exact fun he => JVal.noConfusion he
    exact ((orEmptyIfNull_spec (p.getD 10 JVal.null)).2.1 h10).trans h
  · have h3 : truthy (p.getD 3 JVal.null) = false := by
      rw [h]
      decide
    exact (orEmptyIfFalsy_spec (p.getD 3 JVal.null)).1 h3

end PowerBIScraper
